import Mathlib

/-!
# Atlas Live CSS: rule extraction engine and overlay state machine

A shallow embedding of `src/live-css.js`.

* JavaScript strings are lists of characters (`JSString`).
* Host objects (elements, stylesheets, style declarations, regular
  expressions, the clipboard) are records of the observations the script
  makes on them; an observation that can throw returns `Option`.
* JavaScript numbers (the rule cap, pixel quantities) are exact rationals.
* A regular expression is an object with an identity; the `lastIndex` of every
  such object is kept in a map that the calls of `test` thread along.
-/

set_option autoImplicit false

namespace LiveCss

/-! ## Strings -/

/-- A JavaScript string, as the list of its characters. -/
abbrev JSString := List Char

/-- Characters removed by `String.prototype.trim`: ECMAScript white space and
line terminators. -/
def isTrimChar (c : Char) : Bool :=
  c.val = 0x09 || c.val = 0x0A || c.val = 0x0B || c.val = 0x0C || c.val = 0x0D ||
  c.val = 0x20 || c.val = 0xA0 || c.val = 0x1680 ||
  (0x2000 ≤ c.val && c.val ≤ 0x200A) ||
  c.val = 0x2028 || c.val = 0x2029 || c.val = 0x202F || c.val = 0x205F ||
  c.val = 0x3000 || c.val = 0xFEFF

/-- The method `s.trim()`. -/
def trim (s : JSString) : JSString :=
  ((s.dropWhile isTrimChar).reverse.dropWhile isTrimChar).reverse

/-- The method `s.includes(pat)`. -/
def includes : JSString → JSString → Bool
  | [], pat => pat.isPrefixOf []
  | c :: cs, pat => pat.isPrefixOf (c :: cs) || includes cs pat

/-- The method `s.split(sep)` for a one-character separator: always at least
one part. -/
def split (sep : Char) : JSString → List JSString
  | [] => [[]]
  | c :: cs =>
    if c = sep then [] :: split sep cs
    else
      match split sep cs with
      | [] => [[c]]
      | p :: ps => (c :: p) :: ps

/-- The method `parts.join(sep)`. -/
def join (sep : JSString) (parts : List JSString) : JSString :=
  List.intercalate sep parts

/-- JavaScript truthiness of a string: non-empty. -/
def truthy (s : JSString) : Bool := !s.isEmpty

/-! ## Host objects read by the extraction engine -/

/-- A `CSSStyleDeclaration`: the indexed property names `style[0..length-1]`
and the two lookups by property name. -/
structure CSSStyleDeclaration where
  items : List JSString
  getPropertyValue : JSString → JSString
  getPropertyPriority : JSString → JSString

/-- A `CSSRule`: its numeric `type`, its `selectorText` and its `style`. -/
structure CSSRule where
  type : Nat
  selectorText : JSString
  style : CSSStyleDeclaration

/-- The constant `CSSRule.STYLE_RULE`. -/
def STYLE_RULE : Nat := 1

/-- A stylesheet: `href` (`none` is `null`) and `cssRules`, where `none` means
that reading the rule list throws (cross-origin sheet). -/
structure StyleSheet where
  href : Option JSString
  cssRules : Option (List CSSRule)

/-- An element, observed through `el.matches(selector)`; `none` means the
selector engine throws. -/
structure Element where
  «matches» : JSString → Option Bool

/-- A `RegExp` object: its identity, whether it has the flag `g` or `y` (and so
reads and writes its `lastIndex`), and its matcher: `exec start s` is the end
index of the match that a search started at index `start` of `s` finds, or
`none` when it finds none. -/
structure RegExp where
  id : Nat
  keepsLastIndex : Bool
  exec : Nat → JSString → Option Nat

/-- The `lastIndex` property of every `RegExp` object, by identity. -/
abbrev LastIndexes := Nat → Nat

/-- Assignment to the `lastIndex` of the object `id`. -/
def setLastIndex (li : LastIndexes) (id v : Nat) : LastIndexes :=
  fun j => if j = id then v else li j

/-- The method `r.test(s)`: the answer and the `lastIndex` map afterwards. With
the flag `g` or `y` the search starts at `lastIndex`, which becomes the end of
the match, or 0 when there is none; without them it starts at 0 and `lastIndex`
is left alone. -/
def RegExp.test (r : RegExp) (s : JSString) (li : LastIndexes) : Bool × LastIndexes :=
  if r.keepsLastIndex then
    let lastIndex := li r.id
    if s.length < lastIndex then (false, setLastIndex li r.id 0)
    else
      match r.exec lastIndex s with
      | none => (false, setLastIndex li r.id 0)
      | some e => (true, setLastIndex li r.id e)
  else
    match r.exec 0 s with
    | none => (false, li)
    | some _ => (true, li)

/-- The call `list.some(r => r.test(href))`: it stops at the first pattern that
answers `true`. -/
def someTest (href : JSString) : List RegExp → LastIndexes → Bool × LastIndexes
  | [], li => (false, li)
  | r :: rest, li =>
    match r.test href li with
    | (true, li1) => (true, li1)
    | (false, li1) => someTest href rest li1

/-- ASCII case-insensitive match of `pat` (given in lower case) at the start
of `s`; returns the rest of `s`. -/
def stripPrefixNoCase : JSString → JSString → Option JSString
  | [], s => some s
  | _ :: _, [] => none
  | p :: ps, c :: cs => if c.toLower = p then stripPrefixNoCase ps cs else none

/-- The matcher of `/style\.css(\?|$)/i` on the rest of a string that starts at
index `pos`: the end index of the first match. -/
def defaultIncludeFrom : Nat → JSString → Option Nat
  | _, [] => none
  | pos, c :: cs =>
    match stripPrefixNoCase "style.css".toList (c :: cs) with
    | some [] => some (pos + 9)
    | some (d :: _) => if d = '?' then some (pos + 10) else defaultIncludeFrom (pos + 1) cs
    | none => defaultIncludeFrom (pos + 1) cs

/-- The default include pattern `/style\.css(\?|$)/i`, a fresh object without
the flags `g` and `y`. -/
def defaultInclude : RegExp :=
  { id := 0
    keepsLastIndex := false
    exec := fun start s => defaultIncludeFrom start (s.drop start) }

/-- The options object of `copyMatchedRules`; `none` is an absent field. -/
structure Options where
  includeOpt : Option (List RegExp) := none
  excludeOpt : Option (List RegExp) := none
  includeInlineOpt : Option Bool := none
  maxRulesOpt : Option ℚ := none

/-- The destructured options with their defaults applied. -/
structure Config where
  includePats : List RegExp
  excludePats : List RegExp
  includeInline : Bool
  maxRules : ℚ

/-- Destructuring of `opts` with the defaults of the source. -/
def Options.resolve (o : Options) : Config :=
  { includePats := o.includeOpt.getD [defaultInclude]
    excludePats := o.excludeOpt.getD []
    includeInline := o.includeInlineOpt.getD true
    maxRules := o.maxRulesOpt.getD 200 }

/-! ## The extraction engine -/

/-- The function `isSameOrigin(sheet)`: reading `cssRules` does not throw. -/
def isSameOrigin (sheet : StyleSheet) : Bool := sheet.cssRules.isSome

/-- One line pushed by the loop of `declText`. -/
def declLine (style : CSSStyleDeclaration) (prop : JSString) : JSString :=
  let val := style.getPropertyValue prop
  let prio := style.getPropertyPriority prop
  "  ".toList ++ prop ++ ": ".toList ++ val ++
    (if truthy prio then " !important".toList else []) ++ ";".toList

/-- The function `declText(style)`. -/
def declText (style : CSSStyleDeclaration) : JSString :=
  join "\n".toList (style.items.map (declLine style))

/-- The function `safeMatches(el, selector)`. -/
def safeMatches (el : Element) (selector : JSString) : Bool :=
  if includes selector "::".toList then false
  else
    match el.matches selector with
    | some b => b
    | none => false

/-- The parts tested by `ruleMatchesEl`:
`sel.split(",").map(s => s.trim()).filter(Boolean)`. -/
def selectorParts (sel : JSString) : List JSString :=
  ((split ',' sel).map trim).filter truthy

/-- The function `ruleMatchesEl(rule, el)`. -/
def ruleMatchesEl (rule : CSSRule) (el : Element) : Bool :=
  let sel := rule.selectorText
  if !truthy sel then false
  else (selectorParts sel).any (fun s => safeMatches el s)

/-- The text pushed onto `chunks` for an included rule. -/
def ruleChunk (rule : CSSRule) : JSString :=
  rule.selectorText ++ " \x7b\n".toList ++ declText rule.style ++ "\n\x7d".toList

/-- The loop state of `copyMatchedRules`: `chunks`, `count`, and a trace of the
selector texts of the rules handed to `ruleMatchesEl`. -/
structure Scan where
  chunks : List JSString
  count : Nat
  tested : List JSString
deriving DecidableEq, Repr

/-- The inner loop `for (const rule of Array.from(sheet.cssRules))`. -/
def scanRules (cfg : Config) (el : Element) : List CSSRule → Scan → Scan
  | [], st => st
  | rule :: rest, st =>
    if cfg.maxRules ≤ (st.count : ℚ) then st
    else if rule.type ≠ STYLE_RULE then scanRules cfg el rest st
    else
      let st1 : Scan := { st with tested := st.tested ++ [rule.selectorText] }
      if ruleMatchesEl rule el then
        let body := declText rule.style
        if truthy (trim body) then
          scanRules cfg el rest
            { st1 with chunks := st1.chunks ++ [ruleChunk rule], count := st1.count + 1 }
        else scanRules cfg el rest st1
      else scanRules cfg el rest st1

/-- The constant `href` of the outer loop: `sheet.href || ""`. -/
def sheetHref (sheet : StyleSheet) : JSString := sheet.href.getD []

/-- The constant `isInline` of the outer loop: `!sheet.href`. -/
def isInline (sheet : StyleSheet) : Bool :=
  match sheet.href with
  | none => true
  | some h => !truthy h

/-- The sheet filter of the outer loop: `true` when no `continue` is taken and
the rule loop of the sheet is entered; with the `lastIndex` map afterwards. -/
def sheetScanned (cfg : Config) (sheet : StyleSheet) (li : LastIndexes) : Bool × LastIndexes :=
  if !isSameOrigin sheet then (false, li)
  else
    let href := sheetHref sheet
    let isInline := isInline sheet
    if !cfg.includeInline && isInline then (false, li)
    else if !isInline then
      match someTest href cfg.excludePats li with
      | (true, li1) => (false, li1)
      | (false, li1) =>
        if cfg.includePats.length ≠ 0 then
          match someTest href cfg.includePats li1 with
          | (true, li2) => (true, li2)
          | (false, li2) => (false, li2)
        else (true, li1)
    else (true, li)

/-- The outer loop `for (const sheet of Array.from(document.styleSheets))`. -/
def scanSheets (cfg : Config) (el : Element) :
    List StyleSheet → Scan → LastIndexes → Scan × LastIndexes
  | [], st, li => (st, li)
  | sheet :: rest, st, li =>
    match sheetScanned cfg sheet li with
    | (true, li1) =>
      scanSheets cfg el rest (scanRules cfg el (sheet.cssRules.getD []) st) li1
    | (false, li1) => scanSheets cfg el rest st li1

/-- The sentinel text used when nothing was collected. -/
def sentinel : JSString :=
  "/* No matching STYLE_RULE rules found (or sheet not accessible). */".toList

/-- The expression `chunks.join("\n\n") || sentinel`. -/
def outText (chunks : List JSString) : JSString :=
  let joined := join "\n\n".toList chunks
  if truthy joined then joined else sentinel

/-- The state of the loops when they finish; `li` holds the `lastIndex` of the
pattern objects when the call starts. -/
def extractScan (cfg : Config) (el : Element) (sheets : List StyleSheet)
    (li : LastIndexes) : Scan :=
  (scanSheets cfg el sheets { chunks := [], count := 0, tested := [] } li).1

/-- The value of `out` in `copyMatchedRules`. -/
def extractText (cfg : Config) (el : Element) (sheets : List StyleSheet)
    (li : LastIndexes) : JSString :=
  outText (extractScan cfg el sheets li).chunks

/-- How the promise returned by `copyMatchedRules` settles. -/
inductive Completion where
  | fulfilled (text : JSString)
  | rejectedElementRequired
  | rejectedClipboard
deriving DecidableEq, Repr

/-- The function `copyMatchedRules(el, opts)`; `sheets` is
`document.styleSheets`, `li` holds the `lastIndex` of the pattern objects and
`writeText out` tells whether `navigator.clipboard.writeText(out)` resolves. -/
def copyMatchedRules (sheets : List StyleSheet) (li : LastIndexes)
    (writeText : JSString → Bool) (el : Option Element) (opts : Options) : Completion :=
  match el with
  | none => .rejectedElementRequired
  | some e =>
    let out := extractText opts.resolve e sheets li
    if writeText out then .fulfilled out else .rejectedClipboard

/-! ### Scenario data -/

/-- A declaration block with the single declaration `color: red !important`. -/
def colorRedImportant : CSSStyleDeclaration :=
  { items := ["color".toList]
    getPropertyValue := fun p => if p = "color".toList then "red".toList else []
    getPropertyPriority := fun p => if p = "color".toList then "important".toList else [] }

/-- The rule `.btn { color: red !important; }`. -/
def btnRule : CSSRule :=
  { type := STYLE_RULE, selectorText := ".btn".toList, style := colorRedImportant }

/-- An element with class `btn` and nothing else: it matches `.btn` only. -/
def btnElement : Element :=
  { «matches» := fun s => some (decide (s = ".btn".toList)) }

/-- One external sheet `https://example.test/css/style.css` holding `btnRule`. -/
def scenarioSheets : List StyleSheet :=
  [{ href := some "https://example.test/css/style.css".toList, cssRules := some [btnRule] }]

/-! ## The overlay -/

/-- The options of `init` read by the handlers modelled here. -/
structure OverlayConfig where
  minWidth : ℚ
  minHeight : ℚ
  maxWidthPct : ℚ
  maxHeightPct : ℚ
  threeFingerOpen : Bool
  startOpen : Bool

/-- The object `DEFAULTS`, restricted to the options of `OverlayConfig`. -/
def DEFAULTS : OverlayConfig :=
  { minWidth := 240
    minHeight := 180
    maxWidthPct := 95 / 100
    maxHeightPct := 75 / 100
    threeFingerOpen := true
    startOpen := false }

/-- The function `clamp(n, a, b)`: `Math.max(a, Math.min(b, n))`. -/
def clamp (n a b : ℚ) : ℚ := max a (min b n)

/-- The text of an inline style property or of a field of a layout record:
the empty string, a number followed by `px`, or any other text. -/
inductive CssValue where
  | unset
  | px (n : ℚ)
  | keyword (s : JSString)
deriving DecidableEq, Repr

/-- The expression `v || d` on style texts. -/
def CssValue.orElse (v d : CssValue) : CssValue :=
  match v with
  | .unset => d
  | w => w

/-- What `JSON.parse` and the destructuring make of a stored layout string:
either they throw, or they give the two fields of the record. -/
inductive LayoutRecord where
  | malformed
  | fields (first second : CssValue)
deriving DecidableEq, Repr

/-- The four records of `localStorage` used by the overlay, one per storage
key (`LS_KEY`, `LS_POS`, `LS_SIZE`, `LS_OPEN`); `none` is an absent key. The
four configured keys are pairwise distinct, as the default keys are. -/
structure Storage where
  css : Option JSString
  pos : Option LayoutRecord
  size : Option LayoutRecord
  openFlag : Option JSString
deriving DecidableEq, Repr

/-- The variable `drag` while a reposition session is active. -/
structure DragSession where
  startX : ℚ
  startY : ℚ
  startRight : ℚ
  startBottom : ℚ
deriving DecidableEq, Repr

/-- The variable `resize` while a resize session is active. -/
structure ResizeSession where
  startX : ℚ
  startY : ℚ
  startW : ℚ
  startH : ℚ
deriving DecidableEq, Repr

/-- The mutable state owned by `init`: the textarea, the live override style
tag, the classes and inline styles of `wrap`, the inline size of `panel`, the
two session variables and `localStorage`. -/
structure Overlay where
  taValue : JSString
  styleTagText : JSString
  isOpen : Bool
  dragging : Bool
  right : CssValue
  bottom : CssValue
  left : CssValue
  top : CssValue
  panelWidth : CssValue
  panelHeight : CssValue
  drag : Option DragSession
  resize : Option ResizeSession
  storage : Storage
deriving DecidableEq, Repr

/-- What a pointer event and the window give a handler: `clientX`, `clientY`,
`window.innerWidth`, `window.innerHeight`. -/
structure PointerInput where
  clientX : ℚ
  clientY : ℚ
  innerWidth : ℚ
  innerHeight : ℚ
deriving DecidableEq, Repr

/-- The immediately invoked function `applyPos`. -/
def applyPos (s : Overlay) : Overlay :=
  match s.storage.pos with
  | none => s
  | some .malformed => s
  | some (.fields right bottom) =>
    { s with right := right, bottom := bottom, left := .keyword "auto".toList,
             top := .keyword "auto".toList }

/-- The immediately invoked function `applySize`. -/
def applySize (s : Overlay) : Overlay :=
  match s.storage.size with
  | none => s
  | some .malformed => s
  | some (.fields w h) => { s with panelWidth := w, panelHeight := h }

/-- The state `init` leaves behind once the overlay is attached, given the
content of `localStorage`. -/
def attach (cfg : OverlayConfig) (storage : Storage) : Overlay :=
  let saved := storage.css.getD []
  let openSaved := storage.openFlag
  let s0 : Overlay :=
    { taValue := saved
      styleTagText := saved
      isOpen := decide (openSaved = some "1".toList) || (openSaved.isNone && cfg.startOpen)
      dragging := false
      right := .unset, bottom := .unset, left := .unset, top := .unset
      panelWidth := .unset, panelHeight := .unset
      drag := none, resize := none
      storage := storage }
  applySize (applyPos s0)

/-- The function `setOpen(isOpen)`. -/
def setOpen (isOpen : Bool) (s : Overlay) : Overlay :=
  { s with isOpen := isOpen
           storage := { s.storage with
             openFlag := some (if isOpen then "1".toList else "0".toList) } }

/-- The click listener of the floating button. -/
def fabClick (s : Overlay) : Overlay := setOpen (!s.isOpen) s

/-- The `input` listener of the textarea, after the user changed its value to `v`. -/
def taInput (v : JSString) (s : Overlay) : Overlay :=
  { s with taValue := v, styleTagText := v, storage := { s.storage with css := some v } }

/-- The `pointerdown` listener of the bar; `rectRight` and `rectBottom` come
from `wrap.getBoundingClientRect()`. -/
def barPointerDown (e : PointerInput) (rectRight rectBottom : ℚ) (s : Overlay) : Overlay :=
  { s with dragging := true
           drag := some { startX := e.clientX, startY := e.clientY,
                          startRight := e.innerWidth - rectRight,
                          startBottom := e.innerHeight - rectBottom } }

/-- The first `pointermove` listener of the window (reposition). -/
def dragPointerMove (e : PointerInput) (s : Overlay) : Overlay :=
  match s.drag with
  | none => s
  | some drag =>
    let dx := e.clientX - drag.startX
    let dy := e.clientY - drag.startY
    let right := drag.startRight - dx
    let bottom := drag.startBottom - dy
    let right := clamp right 6 (e.innerWidth - 56)
    let bottom := clamp bottom 6 (e.innerHeight - 56)
    { s with right := .px right, bottom := .px bottom,
             left := .keyword "auto".toList, top := .keyword "auto".toList }

/-- The first `pointerup` listener of the window (reposition). -/
def dragPointerUp (s : Overlay) : Overlay :=
  match s.drag with
  | none => s
  | some _ =>
    { s with dragging := false
             storage := { s.storage with
               pos := some (.fields (s.right.orElse (.px 14)) (s.bottom.orElse (.px 14))) }
             drag := none }

/-- The `pointerdown` listener of the resize handle; `rectWidth` and
`rectHeight` come from `panel.getBoundingClientRect()`. -/
def handlePointerDown (e : PointerInput) (rectWidth rectHeight : ℚ) (s : Overlay) : Overlay :=
  { s with resize := some { startX := e.clientX, startY := e.clientY,
                            startW := rectWidth, startH := rectHeight } }

/-- The second `pointermove` listener of the window (resize). -/
def resizePointerMove (cfg : OverlayConfig) (e : PointerInput) (s : Overlay) : Overlay :=
  match s.resize with
  | none => s
  | some resize =>
    let dx := e.clientX - resize.startX
    let dy := e.clientY - resize.startY
    let w := resize.startW + dx
    let h := resize.startH + dy
    let w := clamp w cfg.minWidth (e.innerWidth * cfg.maxWidthPct)
    let h := clamp h cfg.minHeight (e.innerHeight * cfg.maxHeightPct)
    { s with panelWidth := .px w, panelHeight := .px h }

/-- The second `pointerup` listener of the window (resize). -/
def resizePointerUp (s : Overlay) : Overlay :=
  match s.resize with
  | none => s
  | some _ =>
    { s with storage := { s.storage with
               size := some (.fields (s.panelWidth.orElse (.px 420))
                                     (s.panelHeight.orElse (.px 420))) }
             resize := none }

/-- The `touchstart` listener of the window, with `e.touches.length`. -/
def touchStart (cfg : OverlayConfig) (touches : Nat) (s : Overlay) : Overlay :=
  if cfg.threeFingerOpen && touches = 3 then setOpen true s else s

/-- The API function `resetCSS()`. -/
def resetCSS (s : Overlay) : Overlay :=
  { s with taValue := [], styleTagText := [], storage := { s.storage with css := none } }

/-- The API function `resetUI()`. -/
def resetUI (s : Overlay) : Overlay :=
  { s with storage := { s.storage with pos := none, size := none, openFlag := none }
           right := .px 14
           bottom := .px 14
           panelWidth := .unset
           panelHeight := .unset
           isOpen := false }

/-- The API function `getCSS()`. -/
def getCSS (s : Overlay) : JSString := s.taValue

/-- The API function `setCSS(css)`; `none` is a missing or null argument. -/
def setCSS (css : Option JSString) (s : Overlay) : Overlay :=
  let v := css.getD []
  { s with taValue := v, styleTagText := v, storage := { s.storage with css := some v } }

/-- One run of a listener or API function of the overlay. -/
inductive Event where
  | fabClick
  | taInput (v : JSString)
  | apiOpen
  | apiClose
  | apiSetCSS (css : Option JSString)
  | apiResetCSS
  | apiResetUI
  | barPointerDown (e : PointerInput) (rectRight rectBottom : ℚ)
  | handlePointerDown (e : PointerInput) (rectWidth rectHeight : ℚ)
  | windowPointerMove (e : PointerInput)
  | windowPointerUp
  | touchStart (touches : Nat)
deriving DecidableEq, Repr

/-- The effect of one event; the window runs its reposition listener before
its resize listener. -/
def step (cfg : OverlayConfig) (s : Overlay) : Event → Overlay
  | .fabClick => fabClick s
  | .taInput v => taInput v s
  | .apiOpen => setOpen true s
  | .apiClose => setOpen false s
  | .apiSetCSS css => setCSS css s
  | .apiResetCSS => resetCSS s
  | .apiResetUI => resetUI s
  | .barPointerDown e r b => barPointerDown e r b s
  | .handlePointerDown e w h => handlePointerDown e w h s
  | .windowPointerMove e => resizePointerMove cfg e (dragPointerMove e s)
  | .windowPointerUp => resizePointerUp (dragPointerUp s)
  | .touchStart n => touchStart cfg n s

/-- The state after a history of events, from the state left by `init`. -/
def run (cfg : OverlayConfig) (storage : Storage) (history : List Event) : Overlay :=
  history.foldl (step cfg) (attach cfg storage)

/-! ## Reference descriptions used in the statements -/

/-- A rule that the inner loop would push when it reaches it below the cap: a
style rule that matches the element and has a non-blank declaration text. -/
def includable (el : Element) (rule : CSSRule) : Bool :=
  decide (rule.type = STYLE_RULE) && ruleMatchesEl rule el &&
    truthy (trim (declText rule.style))

/-- The sheets whose rule loop the outer loop enters, in stylesheet order; the
`lastIndex` map is threaded from sheet to sheet as the loop does. -/
def scannedSheets (cfg : Config) : List StyleSheet → LastIndexes → List StyleSheet
  | [], _ => []
  | sheet :: rest, li =>
    match sheetScanned cfg sheet li with
    | (true, li1) => sheet :: scannedSheets cfg rest li1
    | (false, li1) => scannedSheets cfg rest li1

/-- The rules of the sheets whose rule loop is entered, in stylesheet order and
then rule order. -/
def eligibleRules (cfg : Config) (sheets : List StyleSheet) (li : LastIndexes) :
    List CSSRule :=
  (scannedSheets cfg sheets li).flatMap (fun sheet => sheet.cssRules.getD [])

/-- The number of rules the cap lets through: the least whole number that is
at least `maxRules`, and 0 for a negative cap. -/
def capCount (cfg : Config) : Nat := ⌈cfg.maxRules⌉.toNat

/-- The first `capCount` includable rules among the eligible ones. -/
def includedRules (cfg : Config) (el : Element) (sheets : List StyleSheet)
    (li : LastIndexes) : List CSSRule :=
  ((eligibleRules cfg sheets li).filter (includable el)).take (capCount cfg)

/-- The number of rules that may still be pushed from a loop state. -/
def room (cfg : Config) (st : Scan) : Nat := capCount cfg - st.count

/-- The filter the outer loop applies to a sheet when no pattern keeps a
`lastIndex`, read off `sheet.href`: an inline sheet (no href, or an empty one)
passes when `includeInline` holds; an external sheet passes when no exclude
pattern matches its href and the include list is empty or has a pattern that
matches it. -/
def passesByHref (cfg : Config) (sheet : StyleSheet) : Bool :=
  match sheet.href with
  | none => cfg.includeInline
  | some [] => cfg.includeInline
  | some (c :: cs) =>
    !cfg.excludePats.any (fun r => (r.exec 0 (c :: cs)).isSome) &&
      (cfg.includePats.isEmpty ||
        cfg.includePats.any (fun r => (r.exec 0 (c :: cs)).isSome))

/-- The matcher of a literal pattern on the rest of a string that starts at
index `pos`: the end index of the first occurrence. -/
def findFrom (pat : JSString) : Nat → JSString → Option Nat
  | pos, [] => if pat.isEmpty then some pos else none
  | pos, c :: cs =>
    if pat.isPrefixOf (c :: cs) then some (pos + pat.length)
    else findFrom pat (pos + 1) cs

/-- The pattern `/style\.css/g`, as the object with identity 1. -/
def styleCssGlobal : RegExp :=
  { id := 1
    keepsLastIndex := true
    exec := fun start s => findFrom "style.css".toList start (s.drop start) }

/-- The pattern `/style\.css/`, without flags. -/
def styleCssPlain : RegExp :=
  { id := 2
    keepsLastIndex := false
    exec := fun start s => findFrom "style.css".toList start (s.drop start) }

/-- The `lastIndex` map of freshly created patterns: 0 everywhere. -/
def freshLastIndexes : LastIndexes := fun _ => 0

/-- The selector split the specification describes: at commas outside
parentheses and brackets only; `depth` counts the open ones. -/
def splitTopLevel : Nat → JSString → List JSString
  | _, [] => [[]]
  | depth, c :: cs =>
    let inner :=
      if c = '(' ∨ c = '[' then depth + 1
      else if c = ')' ∨ c = ']' then depth - 1
      else depth
    if c = ',' ∧ depth = 0 then [] :: splitTopLevel inner cs
    else
      match splitTopLevel inner cs with
      | [] => [[c]]
      | p :: ps => (c :: p) :: ps

/-- The matching the specification describes for a rule: `safeMatches` on the
trimmed, non-empty top-level alternatives of the selector text. -/
def ruleMatchesTopLevel (rule : CSSRule) (el : Element) : Bool :=
  let sel := rule.selectorText
  if !truthy sel then false
  else (((splitTopLevel 0 sel).map trim).filter truthy).any (fun s => safeMatches el s)

/-- The inclusion test as the testable property words it: some comma-separated
alternative is matched by the element and the whole selector text has no `::`. -/
def includedAsWorded (el : Element) (rule : CSSRule) : Bool :=
  (selectorParts rule.selectorText).any (fun alt => decide (el.matches alt = some true)) &&
    !includes rule.selectorText "::".toList

/-! ### Further concrete data -/

/-- A declaration block with the single declaration `color: red`. -/
def colorRed : CSSStyleDeclaration :=
  { items := ["color".toList]
    getPropertyValue := fun p => if p = "color".toList then "red".toList else []
    getPropertyPriority := fun _ => [] }

/-- An empty declaration block. -/
def noDeclarations : CSSStyleDeclaration :=
  { items := [], getPropertyValue := fun _ => [], getPropertyPriority := fun _ => [] }

/-- The rule `a, b::before { color: red; }`. -/
def anchorOrBeforeRule : CSSRule :=
  { type := STYLE_RULE, selectorText := "a, b::before".toList, style := colorRed }

/-- The rule `a { }`. -/
def anchorEmptyRule : CSSRule :=
  { type := STYLE_RULE, selectorText := "a".toList, style := noDeclarations }

/-- The rule `a { color: red; }`. -/
def anchorRule : CSSRule :=
  { type := STYLE_RULE, selectorText := "a".toList, style := colorRed }

/-- An `a` element without classes: it matches the selector `a` only. -/
def anchorElement : Element :=
  { «matches» := fun s => some (decide (s = "a".toList)) }

/-- One inline sheet with the three anchor rules. -/
def anchorSheets : List StyleSheet :=
  [{ href := none, cssRules := some [anchorOrBeforeRule, anchorEmptyRule, anchorRule] }]

/-- The options with `maxRules` 1. -/
def capOne : Options := { maxRulesOpt := some 1 }

/-- The options with `maxRules` 1.5, the fraction three over two. -/
def capThreeHalves : Options := { maxRulesOpt := some (mkRat 3 2) }

/-- An element that every selector matches. -/
def anyElement : Element := { «matches» := fun _ => some true }

/-- The rule `.one { color: red; }`. -/
def ruleOne : CSSRule :=
  { type := STYLE_RULE, selectorText := ".one".toList, style := colorRed }

/-- The rule `.two { color: red; }`. -/
def ruleTwo : CSSRule :=
  { type := STYLE_RULE, selectorText := ".two".toList, style := colorRed }

/-- The rule `.three { color: red; }`. -/
def ruleThree : CSSRule :=
  { type := STYLE_RULE, selectorText := ".three".toList, style := colorRed }

/-- An external sheet at `https://example.test/css/style.css` with one rule. -/
def styleCssWith (rule : CSSRule) : StyleSheet :=
  { href := some "https://example.test/css/style.css".toList, cssRules := some [rule] }

/-- Three external sheets, all at `https://example.test/css/style.css`. -/
def threeStyleCssSheets : List StyleSheet :=
  [styleCssWith ruleOne, styleCssWith ruleTwo, styleCssWith ruleThree]

/-- The options whose include list is `[/style\.css/g]`. -/
def includeGlobal : Options := { includeOpt := some [styleCssGlobal] }

/-- The options whose include list is `[/style\.css/]`. -/
def includePlain : Options := { includeOpt := some [styleCssPlain] }

/-- An external sheet at `https://example.test/css/main.css`. -/
def mainCssSheet : StyleSheet :=
  { href := some "https://example.test/css/main.css".toList, cssRules := some [btnRule] }

/-- An inline sheet. -/
def inlineSheet : StyleSheet := { href := none, cssRules := some [btnRule] }

/-- The options whose exclude list is `[/style\.css/]`. -/
def excludePlain : Options := { excludeOpt := some [styleCssPlain] }

/-- The rule `:is(a, b) { color: red; }`. -/
def isListRule : CSSRule :=
  { type := STYLE_RULE, selectorText := ":is(a, b)".toList, style := colorRed }

/-- A `b` element without classes: it matches `:is(a, b)` and `b`; the selector
engine throws on the fragment `b)`, and nothing else matches. -/
def boldElement : Element :=
  { «matches» := fun s =>
      if s = ":is(a, b)".toList then some true
      else if s = "b".toList then some true
      else if s = "b)".toList then none
      else some false }

/-- The external sheet of the scenario. -/
def styleCssSheet : StyleSheet :=
  { href := some "https://example.test/css/style.css".toList, cssRules := some [btnRule] }

/-- A first inline sheet with two rules matching `anchorElement`. -/
def twoAnchorRules : List StyleSheet :=
  [{ href := none, cssRules := some [anchorRule, anchorRule] }]

/-- A later inline sheet with one more matching rule. -/
def oneMoreAnchorRule : List StyleSheet :=
  [{ href := none, cssRules := some [anchorRule] }]

/-- Whether a style text is a pixel length inside the band `[lo, hi]`. -/
def CssValue.within (v : CssValue) (lo hi : ℚ) : Bool :=
  match v with
  | .px n => decide (lo ≤ n) && decide (n ≤ hi)
  | _ => false

/-- A `localStorage` without any of the four records. -/
def emptyStorage : Storage := { css := none, pos := none, size := none, openFlag := none }

/-- A pointer at (30, 30) in a 50 by 50 viewport. -/
def narrowPointer : PointerInput :=
  { clientX := 30, clientY := 30, innerWidth := 50, innerHeight := 50 }

/-- A reposition session started in the 50 by 50 viewport, the overlay sitting
at its default place 14px from the right and bottom edges. -/
def narrowDragging : Overlay :=
  barPointerDown narrowPointer (50 - 14) (50 - 14) (attach DEFAULTS emptyStorage)

/-- A pointer at (100, 100) in a 1000 by 800 viewport. -/
def widePointer : PointerInput :=
  { clientX := 100, clientY := 100, innerWidth := 1000, innerHeight := 800 }

/-- A pointer at (40, 60) in the 1000 by 800 viewport. -/
def widePointerMoved : PointerInput :=
  { clientX := 40, clientY := 60, innerWidth := 1000, innerHeight := 800 }

/-- A reposition session and a resize session, both started at (100, 100) in
the 1000 by 800 viewport from the freshly attached overlay, whose box ends 14px
from the right and bottom edges and whose panel measures 420 by 420. -/
def bothSessions : Overlay :=
  handlePointerDown widePointer 420 420
    (barPointerDown widePointer 986 786 (attach DEFAULTS emptyStorage))

/-- A `localStorage` whose position record holds right 0px and bottom 0px and
whose size record holds width 10px and height 10px. -/
def cornerStorage : Storage :=
  { css := none
    pos := some (.fields (.px 0) (.px 0))
    size := some (.fields (.px 10) (.px 10))
    openFlag := none }

/-! ## Lemmas on the loops -/

theorem cap_reached_iff (cfg : Config) (n : Nat) :
    cfg.maxRules ≤ (n : ℚ) ↔ capCount cfg ≤ n := by
  unfold capCount
  rw [Int.toNat_le, Int.ceil_le]
  simp

theorem scanRules_capped (cfg : Config) (el : Element) (rules : List CSSRule) (st : Scan)
    (h : cfg.maxRules ≤ (st.count : ℚ)) : scanRules cfg el rules st = st := by
  cases rules with
  | nil => rfl
  | cons rule rest => simp [scanRules, h]

theorem scanSheets_capped (cfg : Config) (el : Element) (sheets : List StyleSheet) :
    ∀ (st : Scan) (li : LastIndexes), cfg.maxRules ≤ (st.count : ℚ) →
      (scanSheets cfg el sheets st li).1 = st := by
  induction sheets with
  | nil => intro st li _; rfl
  | cons sheet rest ih =>
    intro st li h
    cases hs : sheetScanned cfg sheet li with
    | mk b li1 =>
      cases b
      · simp only [scanSheets, hs]
        exact ih st li1 h
      · simp only [scanSheets, hs]
        rw [scanRules_capped cfg el _ st h]
        exact ih st li1 h

theorem room_succ (cfg : Config) (st : Scan) (c : List JSString) (t : List JSString)
    (h : ¬ cfg.maxRules ≤ (st.count : ℚ)) :
    room cfg st = room cfg { chunks := c, count := st.count + 1, tested := t } + 1 := by
  rw [cap_reached_iff] at h
  unfold room
  simp only
  omega

theorem scanRules_spec (cfg : Config) (el : Element) (rules : List CSSRule) :
    ∀ st : Scan,
      (scanRules cfg el rules st).chunks =
          st.chunks ++ (((rules.filter (includable el)).take (room cfg st)).map ruleChunk) ∧
      (scanRules cfg el rules st).count =
          st.count + ((rules.filter (includable el)).take (room cfg st)).length := by
  induction rules with
  | nil => intro st; simp [scanRules]
  | cons rule rest ih =>
    intro st
    by_cases hcap : cfg.maxRules ≤ (st.count : ℚ)
    · have hroom : room cfg st = 0 := by
        have := (cap_reached_iff cfg st.count).mp hcap
        unfold room
        omega
      simp [scanRules, hcap, hroom]
    · by_cases hty : rule.type = STYLE_RULE
      · by_cases hm : ruleMatchesEl rule el = true
        · by_cases hb : truthy (trim (declText rule.style)) = true
          · have hinc : includable el rule = true := by simp [includable, hty, hm, hb]
            have hr := room_succ cfg st (st.chunks ++ [ruleChunk rule])
              (st.tested ++ [rule.selectorText]) hcap
            obtain ⟨ih1, ih2⟩ := ih ⟨st.chunks ++ [ruleChunk rule], st.count + 1,
              st.tested ++ [rule.selectorText]⟩
            simp only [scanRules, hcap, hty, hm, hb, if_true, if_false, ne_eq,
              not_true_eq_false, List.filter_cons, hinc]
            rw [hr, ih1, ih2]
            simp [List.take_succ_cons]
            omega
          · have hinc : includable el rule = false := by simp [includable, hty, hm, hb]
            obtain ⟨ih1, ih2⟩ := ih ⟨st.chunks, st.count, st.tested ++ [rule.selectorText]⟩
            simp only [scanRules, hcap, hty, hm, hb, if_true, if_false, ne_eq,
              not_true_eq_false, List.filter_cons, hinc]
            exact ⟨ih1, ih2⟩
        · have hinc : includable el rule = false := by simp [includable, hty, hm]
          obtain ⟨ih1, ih2⟩ := ih ⟨st.chunks, st.count, st.tested ++ [rule.selectorText]⟩
          simp only [scanRules, hcap, hty, hm, if_true, if_false, ne_eq,
            not_true_eq_false, List.filter_cons, hinc]
          exact ⟨ih1, ih2⟩
      · have hinc : includable el rule = false := by simp [includable, hty]
        obtain ⟨ih1, ih2⟩ := ih st
        simp only [scanRules, hcap, hty, if_true, if_false, ne_eq, not_false_eq_true,
          List.filter_cons, hinc]
        exact ⟨ih1, ih2⟩

theorem eligibleRules_cons (cfg : Config) (sheet : StyleSheet) (rest : List StyleSheet)
    (li : LastIndexes) :
    eligibleRules cfg (sheet :: rest) li =
      (if (sheetScanned cfg sheet li).1 then sheet.cssRules.getD [] else []) ++
        eligibleRules cfg rest (sheetScanned cfg sheet li).2 := by
  unfold eligibleRules
  cases hs : sheetScanned cfg sheet li with
  | mk b li1 =>
    cases b <;> simp [scannedSheets, hs]

theorem scanSheets_cons (cfg : Config) (el : Element) (sheet : StyleSheet)
    (rest : List StyleSheet) (st : Scan) (li : LastIndexes) :
    scanSheets cfg el (sheet :: rest) st li =
      scanSheets cfg el rest
        (if (sheetScanned cfg sheet li).1 then scanRules cfg el (sheet.cssRules.getD []) st
         else st)
        (sheetScanned cfg sheet li).2 := by
  cases hs : sheetScanned cfg sheet li with
  | mk b li1 =>
    cases b <;> simp [scanSheets, hs]

theorem scanSheets_spec (cfg : Config) (el : Element) (sheets : List StyleSheet) :
    ∀ (st : Scan) (li : LastIndexes),
      (scanSheets cfg el sheets st li).1.chunks =
          st.chunks ++
            (((eligibleRules cfg sheets li).filter (includable el)).take (room cfg st)).map
              ruleChunk ∧
      (scanSheets cfg el sheets st li).1.count =
          st.count +
            (((eligibleRules cfg sheets li).filter (includable el)).take
              (room cfg st)).length := by
  induction sheets with
  | nil => intro st li; simp [scanSheets, eligibleRules, scannedSheets]
  | cons sheet rest ih =>
    intro st li
    rw [eligibleRules_cons, scanSheets_cons]
    by_cases h : (sheetScanned cfg sheet li).1 = true
    · obtain ⟨r1, r2⟩ := scanRules_spec cfg el (sheet.cssRules.getD []) st
      obtain ⟨ih1, ih2⟩ := ih (scanRules cfg el (sheet.cssRules.getD []) st)
        (sheetScanned cfg sheet li).2
      have hroom : room cfg (scanRules cfg el (sheet.cssRules.getD []) st) =
          room cfg st - ((sheet.cssRules.getD []).filter (includable el)).length := by
        unfold room
        rw [r2, List.length_take]
        unfold room
        omega
      simp only [h, if_true, List.filter_append, List.take_append_eq_append_take,
        List.map_append, List.length_append]
      rw [ih1, ih2, r1, r2, hroom]
      simp [List.append_assoc, Nat.add_assoc]
    · obtain ⟨ih1, ih2⟩ := ih st (sheetScanned cfg sheet li).2
      simp only [h, Bool.false_eq_true, if_false, List.nil_append]
      exact ⟨ih1, ih2⟩

theorem extractScan_chunks (cfg : Config) (el : Element) (sheets : List StyleSheet)
    (li : LastIndexes) :
    (extractScan cfg el sheets li).chunks = (includedRules cfg el sheets li).map ruleChunk := by
  have h := (scanSheets_spec cfg el sheets { chunks := [], count := 0, tested := [] } li).1
  simpa [extractScan, includedRules, room] using h

theorem extractScan_count (cfg : Config) (el : Element) (sheets : List StyleSheet)
    (li : LastIndexes) :
    (extractScan cfg el sheets li).count = (includedRules cfg el sheets li).length := by
  have h := (scanSheets_spec cfg el sheets { chunks := [], count := 0, tested := [] } li).2
  simpa [extractScan, includedRules, room] using h

theorem scanRules_append (cfg : Config) (el : Element) (pre post : List CSSRule) :
    ∀ st : Scan,
      scanRules cfg el (pre ++ post) st = scanRules cfg el post (scanRules cfg el pre st) := by
  induction pre with
  | nil => intro st; rfl
  | cons rule rest ih =>
    intro st
    by_cases hcap : cfg.maxRules ≤ (st.count : ℚ)
    · rw [scanRules_capped cfg el _ st hcap, scanRules_capped cfg el _ st hcap,
        scanRules_capped cfg el _ st hcap]
    · simp only [List.cons_append, scanRules, hcap, if_false]
      split
      · exact ih _
      · split
        · split
          · exact ih _
          · exact ih _
        · exact ih _

theorem scanSheets_append (cfg : Config) (el : Element) (pre post : List StyleSheet) :
    ∀ (st : Scan) (li : LastIndexes),
      scanSheets cfg el (pre ++ post) st li =
        scanSheets cfg el post (scanSheets cfg el pre st li).1
          (scanSheets cfg el pre st li).2 := by
  induction pre with
  | nil => intro st li; rfl
  | cons sheet rest ih =>
    intro st li
    rw [List.cons_append, scanSheets_cons, scanSheets_cons]
    exact ih _ _

theorem scannedSheets_sublist (cfg : Config) (sheets : List StyleSheet) :
    ∀ li : LastIndexes, List.Sublist (scannedSheets cfg sheets li) sheets := by
  induction sheets with
  | nil => intro li; exact List.Sublist.slnil
  | cons sheet rest ih =>
    intro li
    cases hs : sheetScanned cfg sheet li with
    | mk b li1 =>
      cases b
      · simp only [scannedSheets, hs]
        exact (ih li1).cons _
      · simp only [scannedSheets, hs]
        exact (ih li1).cons₂ _

theorem someTest_stateless (href : JSString) (pats : List RegExp) (li : LastIndexes)
    (h : ∀ r ∈ pats, r.keepsLastIndex = false) :
    someTest href pats li = (pats.any (fun r => (r.exec 0 href).isSome), li) := by
  induction pats with
  | nil => rfl
  | cons r rest ih =>
    have hr : r.keepsLastIndex = false := h r (List.mem_cons_self _ _)
    have hrest := ih (fun q hq => h q (List.mem_cons_of_mem _ hq))
    cases he : r.exec 0 href with
    | none => simp [someTest, RegExp.test, hr, he, hrest]
    | some e => simp [someTest, RegExp.test, hr, he]

theorem sheetScanned_stateless (cfg : Config) (sheet : StyleSheet) (rules : List CSSRule)
    (li : LastIndexes) (h : sheet.cssRules = some rules)
    (hs : ∀ r ∈ cfg.excludePats ++ cfg.includePats, r.keepsLastIndex = false) :
    sheetScanned cfg sheet li = (passesByHref cfg sheet, li) := by
  have hso : isSameOrigin sheet = true := by simp [isSameOrigin, h]
  cases hh : sheet.href with
  | none =>
    cases hc : cfg.includeInline <;>
      simp [sheetScanned, passesByHref, hso, isInline, hh, hc]
  | some href =>
    cases href with
    | nil =>
      cases hc : cfg.includeInline <;>
        simp [sheetScanned, passesByHref, hso, isInline, hh, hc, truthy]
    | cons c cs =>
      have hex := someTest_stateless (c :: cs) cfg.excludePats li
        (fun r hr => hs r (List.mem_append_left _ hr))
      have hin := someTest_stateless (c :: cs) cfg.includePats li
        (fun r hr => hs r (List.mem_append_right _ hr))
      have hinl : isInline sheet = false := by simp [isInline, hh, truthy]
      have hhref : sheetHref sheet = c :: cs := by simp [sheetHref, hh]
      unfold sheetScanned passesByHref
      simp only [hso, hinl, hhref, hh, Bool.not_true, Bool.not_false, Bool.and_false,
        Bool.false_eq_true, if_false, if_true, hex]
      cases hx : cfg.excludePats.any (fun r => (r.exec 0 (c :: cs)).isSome)
      · cases hl : cfg.includePats with
        | nil => simp
        | cons r rest =>
          rw [hl] at hin
          simp only [List.length_cons, ne_eq, Nat.add_one_ne_zero, not_false_eq_true,
            if_true, hin]
          cases hi : (r :: rest).any (fun r => (r.exec 0 (c :: cs)).isSome) <;> simp
      · simp

/-! ## Lemmas on strings -/

theorem join_nil (sep : JSString) : join sep [] = [] := rfl

theorem join_singleton (sep a : JSString) : join sep [a] = a := by
  simp [join, List.intercalate]

theorem join_cons_cons (sep a b : JSString) (rest : List JSString) :
    join sep (a :: b :: rest) = a ++ sep ++ join sep (b :: rest) := by
  simp [join, List.intercalate]

theorem mem_join_of_mem (sep : JSString) (c : Char) (l : JSString) :
    ∀ ls : List JSString, l ∈ ls → c ∈ l → c ∈ join sep ls := by
  intro ls
  induction ls with
  | nil => intro h; simp at h
  | cons a rest ih =>
    intro hl hc
    cases rest with
    | nil =>
      rw [join_singleton]
      simp only [List.mem_singleton] at hl
      exact hl ▸ hc
    | cons b rest2 =>
      rw [join_cons_cons]
      rcases List.mem_cons.mp hl with h | h
      · exact List.mem_append_left _ (List.mem_append_left _ (h ▸ hc))
      · exact List.mem_append_right _ (ih h hc)

theorem getLast_join (sep : JSString) (x : Char) :
    ∀ ls : List JSString, ls ≠ [] → (∀ l ∈ ls, l.getLast? = some x) →
      (join sep ls).getLast? = some x := by
  intro ls
  induction ls with
  | nil => intro h; exact absurd rfl h
  | cons a rest ih =>
    intro _ hall
    cases rest with
    | nil =>
      rw [join_singleton]
      exact hall a (List.mem_singleton.mpr rfl)
    | cons b rest2 =>
      rw [join_cons_cons, List.getLast?_append,
        ih (List.cons_ne_nil _ _) (fun l hl => hall l (List.mem_cons_of_mem _ hl))]
      rfl

theorem trim_eq_nil_iff (s : JSString) : trim s = [] ↔ ∀ c ∈ s, isTrimChar c = true := by
  unfold trim
  rw [List.reverse_eq_nil_iff, List.dropWhile_eq_nil_iff]
  constructor
  · intro h
    have h2 : List.dropWhile isTrimChar (List.dropWhile isTrimChar s) = [] :=
      List.dropWhile_eq_nil_iff.mpr (fun x hx => h x (List.mem_reverse.mpr hx))
    have h3 : List.dropWhile isTrimChar s = [] := by
      cases hd : List.dropWhile isTrimChar s with
      | nil => rfl
      | cons y ys =>
        have hy := List.head?_dropWhile_not isTrimChar s
        rw [hd] at hy h2
        simp only [List.head?_cons] at hy
        simp [List.dropWhile_cons, hy] at h2
    exact List.dropWhile_eq_nil_iff.mp h3
  · intro h x hx
    have h3 : List.dropWhile isTrimChar s = [] := List.dropWhile_eq_nil_iff.mpr h
    rw [h3] at hx
    simp at hx

theorem truthy_iff (s : JSString) : truthy s = true ↔ s ≠ [] := by
  cases s <;> simp [truthy]

theorem semicolon_mem_declLine (style : CSSStyleDeclaration) (prop : JSString) :
    ';' ∈ declLine style prop := by
  unfold declLine
  exact List.mem_append_right _ (by decide)

theorem declText_truthy_iff (style : CSSStyleDeclaration) :
    truthy (trim (declText style)) = true ↔ style.items ≠ [] := by
  rw [truthy_iff]
  constructor
  · intro h hnil
    apply h
    simp [declText, hnil, join_nil, trim]
  · intro h htrim
    rw [trim_eq_nil_iff] at htrim
    cases hi : style.items with
    | nil => exact h hi
    | cons p ps =>
      have hmem : ';' ∈ declText style := by
        unfold declText
        apply mem_join_of_mem _ _ (declLine style p)
        · rw [hi]; simp
        · exact semicolon_mem_declLine style p
      have := htrim ';' hmem
      revert this
      decide

theorem ruleChunk_getLast (rule : CSSRule) : (ruleChunk rule).getLast? = some '}' := by
  unfold ruleChunk
  rw [List.getLast?_append]
  rfl

theorem includable_iff (el : Element) (rule : CSSRule) :
    includable el rule = true ↔
      rule.type = STYLE_RULE ∧ rule.style.items ≠ [] ∧
        ∃ part ∈ (split ',' rule.selectorText).map trim,
          part ≠ [] ∧ includes part "::".toList = false ∧ el.matches part = some true := by
  have hparts : ruleMatchesEl rule el = true ↔
      ∃ part ∈ (split ',' rule.selectorText).map trim,
        part ≠ [] ∧ includes part "::".toList = false ∧ el.matches part = some true := by
    unfold ruleMatchesEl selectorParts
    constructor
    · intro h
      by_cases hs : truthy rule.selectorText = true
      · simp only [hs, Bool.not_true, Bool.false_eq_true, if_false, List.any_eq_true,
          List.mem_filter] at h
        obtain ⟨part, ⟨hmem, htr⟩, hsafe⟩ := h
        refine ⟨part, hmem, (truthy_iff part).mp htr, ?_⟩
        unfold safeMatches at hsafe
        cases hinc : includes part "::".toList with
        | true =>
          rw [hinc] at hsafe
          exact absurd hsafe (by simp)
        | false =>
          rw [hinc] at hsafe
          cases hm : el.matches part with
          | none =>
            rw [hm] at hsafe
            exact absurd hsafe (by simp)
          | some b =>
            rw [hm] at hsafe
            simp only [Bool.false_eq_true, if_false] at hsafe
            rw [hsafe]
            exact ⟨rfl, rfl⟩
      · simp [hs] at h
    · rintro ⟨part, hmem, hne, hinc, hm⟩
      have hs : truthy rule.selectorText = true := by
        rw [truthy_iff]
        intro hnil
        rw [hnil] at hmem
        simp [split, trim] at hmem
        exact hne hmem
      simp only [hs, Bool.not_true, Bool.false_eq_true, if_false, List.any_eq_true,
        List.mem_filter]
      refine ⟨part, ⟨hmem, (truthy_iff part).mpr hne⟩, ?_⟩
      unfold safeMatches
      rw [hinc, hm]
      rfl
  unfold includable
  rw [Bool.and_eq_true, Bool.and_eq_true, decide_eq_true_eq, hparts, declText_truthy_iff]
  tauto

/-! ## The extraction engine: results -/

/-- C1 (counterexample): the testable property as worded fails. One inline
sheet holds `a, b::before { color: red }`, `a { }` and `a { color: red }`, the
element is an `a`, and `maxRules` is 1. The first rule is included although its
selector text contains `::`; the second and third are not included although the
element matches an alternative and their selector text has no `::`. -/
theorem inclusion_as_worded_fails :
    (extractScan capOne.resolve anchorElement anchorSheets freshLastIndexes).chunks =
        [ruleChunk anchorOrBeforeRule] ∧
      includedAsWorded anchorElement anchorOrBeforeRule = false ∧
      includedAsWorded anchorElement anchorEmptyRule = true ∧
      includedAsWorded anchorElement anchorRule = true ∧
      ruleChunk anchorEmptyRule ∉
        (extractScan capOne.resolve anchorElement anchorSheets freshLastIndexes).chunks ∧
      ruleChunk anchorRule ∉
        (extractScan capOne.resolve anchorElement anchorSheets freshLastIndexes).chunks := by
  decide

/-- C1 (amended): the pushed chunks are the serializations of the first
`maxRules` rules (for a cap that is not whole, rounded up), in stylesheet order
and then rule order over the sheets whose rule loop is entered, that are
includable; and a rule is includable exactly when it is a style rule, its
declaration block is not empty, and some comma-separated part of its selector
text, once trimmed, is non-empty, has no `::` in it, and is accepted by
`el.matches` without a throw. -/
theorem inclusion_characterised (cfg : Config) (el : Element) (sheets : List StyleSheet)
    (li : LastIndexes) (rule : CSSRule) :
    (extractScan cfg el sheets li).chunks =
        ((((eligibleRules cfg sheets li).filter (includable el)).take
          ⌈cfg.maxRules⌉.toNat).map ruleChunk) ∧
      (includable el rule = true ↔
        rule.type = STYLE_RULE ∧ rule.style.items ≠ [] ∧
          ∃ part ∈ (split ',' rule.selectorText).map trim,
            part ≠ [] ∧ includes part "::".toList = false ∧ el.matches part = some true) :=
  ⟨extractScan_chunks cfg el sheets li, includable_iff el rule⟩

/-- C2 (counterexample): with `maxRules` 1.5, which is not negative, a sheet
with two matching rules gives two chunks, and 2 is more than 1.5: the test
`count >= maxRules` fails at counts 0 and 1. -/
theorem fractional_cap_lets_two_through :
    0 ≤ capThreeHalves.resolve.maxRules ∧
      capThreeHalves.resolve.maxRules = 3 / 2 ∧
      (extractScan capThreeHalves.resolve anchorElement twoAnchorRules
        freshLastIndexes).chunks = [ruleChunk anchorRule, ruleChunk anchorRule] ∧
      ¬ (((extractScan capThreeHalves.resolve anchorElement twoAnchorRules
          freshLastIndexes).chunks.length : ℚ) ≤ capThreeHalves.resolve.maxRules) := by
  refine ⟨by decide, ?_, by decide, by decide⟩
  simp only [capThreeHalves, Options.resolve, Option.getD_some]
  rw [Rat.mkRat_eq_div]
  norm_num

/-- C2 (amended): with `maxRules ≥ 0` the number of pushed chunks, which is
`count`, is at most `maxRules` rounded up to a whole number, over all sheets
together: so it is below `maxRules + 1`, and at most `maxRules` when `maxRules`
is a whole number. Once `count` has reached `maxRules`, after a prefix of the
sheets or after a prefix of the rules of a sheet, the rest leaves the loop
state as it is: no chunk is pushed and no rule is handed to `ruleMatchesEl`. -/
theorem cap_is_global (cfg : Config) (el : Element) (pre post : List StyleSheet)
    (li : LastIndexes) (rulesPre rulesPost : List CSSRule) (st : Scan)
    (h : 0 ≤ cfg.maxRules) :
    (extractScan cfg el (pre ++ post) li).chunks.length ≤ ⌈cfg.maxRules⌉.toNat ∧
      (((extractScan cfg el (pre ++ post) li).chunks.length : ℚ) < cfg.maxRules + 1) ∧
      (∀ n : ℕ, cfg.maxRules = (n : ℚ) →
        (extractScan cfg el (pre ++ post) li).chunks.length ≤ n) ∧
      (extractScan cfg el (pre ++ post) li).count =
        (extractScan cfg el (pre ++ post) li).chunks.length ∧
      (cfg.maxRules ≤ ((extractScan cfg el pre li).count : ℚ) →
        extractScan cfg el (pre ++ post) li = extractScan cfg el pre li) ∧
      (cfg.maxRules ≤ ((scanRules cfg el rulesPre st).count : ℚ) →
        scanRules cfg el (rulesPre ++ rulesPost) st = scanRules cfg el rulesPre st) := by
  have hlen : (extractScan cfg el (pre ++ post) li).chunks.length ≤ ⌈cfg.maxRules⌉.toNat := by
    rw [extractScan_chunks, List.length_map]
    unfold includedRules capCount
    exact List.length_take_le _ _
  have hceil : (0 : ℤ) ≤ ⌈cfg.maxRules⌉ := Int.ceil_nonneg h
  refine ⟨hlen, ?_, ?_, ?_, ?_, ?_⟩
  · have h1 : ((⌈cfg.maxRules⌉.toNat : ℤ) : ℚ) = ((⌈cfg.maxRules⌉ : ℤ) : ℚ) := by
      rw [Int.toNat_of_nonneg hceil]
    have h2 : (((extractScan cfg el (pre ++ post) li).chunks.length : ℕ) : ℚ) ≤
        ((⌈cfg.maxRules⌉.toNat : ℕ) : ℚ) := by exact_mod_cast hlen
    have h3 := Int.ceil_lt_add_one cfg.maxRules
    have h4 : ((⌈cfg.maxRules⌉.toNat : ℕ) : ℚ) = ((⌈cfg.maxRules⌉ : ℤ) : ℚ) := by
      rw [← h1]
      norm_cast
    linarith
  · intro n hn
    have : ⌈cfg.maxRules⌉.toNat = n := by
      rw [hn, Int.ceil_natCast, Int.toNat_natCast]
    omega
  · rw [extractScan_count, extractScan_chunks, List.length_map]
  · intro hc
    unfold extractScan at hc ⊢
    rw [scanSheets_append, scanSheets_capped cfg el post _ _ hc]
  · intro hc
    rw [scanRules_append, scanRules_capped cfg el rulesPost _ hc]

/-- C2 (witness): `maxRules = 1`, a first sheet with two matching rules and a
later sheet with one more. -/
theorem cap_is_global_witness :
    0 ≤ capOne.resolve.maxRules ∧
      (extractScan capOne.resolve anchorElement (twoAnchorRules ++ oneMoreAnchorRule)
        freshLastIndexes).chunks.length ≤ ⌈capOne.resolve.maxRules⌉.toNat ∧
      (((extractScan capOne.resolve anchorElement (twoAnchorRules ++ oneMoreAnchorRule)
        freshLastIndexes).chunks.length : ℚ) < capOne.resolve.maxRules + 1) ∧
      (capOne.resolve.maxRules ≤
          ((extractScan capOne.resolve anchorElement twoAnchorRules
            freshLastIndexes).count : ℚ) →
        extractScan capOne.resolve anchorElement (twoAnchorRules ++ oneMoreAnchorRule)
            freshLastIndexes =
          extractScan capOne.resolve anchorElement twoAnchorRules freshLastIndexes) :=
  ⟨by decide,
    (cap_is_global capOne.resolve anchorElement twoAnchorRules oneMoreAnchorRule
      freshLastIndexes [anchorRule] [anchorRule]
      { chunks := [], count := 0, tested := [] } (by decide)).1,
    (cap_is_global capOne.resolve anchorElement twoAnchorRules oneMoreAnchorRule
      freshLastIndexes [anchorRule] [anchorRule]
      { chunks := [], count := 0, tested := [] } (by decide)).2.1,
    (cap_is_global capOne.resolve anchorElement twoAnchorRules oneMoreAnchorRule
      freshLastIndexes [anchorRule] [anchorRule]
      { chunks := [], count := 0, tested := [] } (by decide)).2.2.2.2.1⟩

/-- C3 (the code at the failing input): when `navigator.clipboard.writeText`
fails, the promise of `copyMatchedRules` is rejected and the caller gets no
text; when it succeeds the caller gets the extracted text. -/
theorem clipboard_failure_rejects (sheets : List StyleSheet) (li : LastIndexes)
    (el : Element) (opts : Options) :
    copyMatchedRules sheets li (fun _ => false) (some el) opts = .rejectedClipboard ∧
      copyMatchedRules sheets li (fun _ => true) (some el) opts =
        .fulfilled (extractText opts.resolve el sheets li) ∧
      copyMatchedRules scenarioSheets freshLastIndexes (fun _ => false) (some btnElement) {} ≠
        copyMatchedRules scenarioSheets freshLastIndexes (fun _ => true)
          (some btnElement) {} := by
  refine ⟨?_, ?_, by decide⟩ <;> simp [copyMatchedRules]

theorem join_chunks_getLast (rules : List CSSRule) (h : rules ≠ []) :
    (join "\n\n".toList (rules.map ruleChunk)).getLast? = some '}' := by
  apply getLast_join
  · simpa using h
  · intro l hl
    obtain ⟨r, _, hr⟩ := List.mem_map.mp hl
    rw [← hr]
    exact ruleChunk_getLast r

theorem outText_map_ruleChunk (rules : List CSSRule) :
    outText (rules.map ruleChunk) =
      if rules.isEmpty then sentinel else join "\n\n".toList (rules.map ruleChunk) := by
  cases hr : rules with
  | nil => rfl
  | cons r rs =>
    have hl := join_chunks_getLast (r :: rs) (List.cons_ne_nil _ _)
    have hne : join "\n\n".toList ((r :: rs).map ruleChunk) ≠ [] := by
      intro h0
      rw [h0] at hl
      exact absurd hl (by simp)
    unfold outText
    simp only [(truthy_iff _).mpr hne, if_true, List.isEmpty_cons, Bool.false_eq_true, if_false]

/-- C4: a chunk is the selector text, ` {` and a newline, the declaration lines
`  prop: value;` (with ` !important` before the `;` exactly when the priority of
the property is not empty) in the order of the declaration block and separated
by newlines, then a newline and `}`; the chunks are those of the included
rules, which keep the stylesheet-then-rule order; the output joins them with a
blank line; and the scenario sheet gives exactly the expected text. -/
theorem serialization_format (cfg : Config) (el : Element) (sheets : List StyleSheet)
    (li : LastIndexes) (rule : CSSRule) :
    ruleChunk rule =
        rule.selectorText ++ " \x7b\n".toList ++
          join "\n".toList (rule.style.items.map (fun prop =>
            "  ".toList ++ prop ++ ": ".toList ++ rule.style.getPropertyValue prop ++
              (if rule.style.getPropertyPriority prop = [] then []
               else " !important".toList) ++ ";".toList)) ++
          "\n\x7d".toList ∧
      (extractScan cfg el sheets li).chunks = (includedRules cfg el sheets li).map ruleChunk ∧
      List.Sublist (includedRules cfg el sheets li) (eligibleRules cfg sheets li) ∧
      List.Sublist (scannedSheets cfg sheets li) sheets ∧
      extractText cfg el sheets li =
        (if (includedRules cfg el sheets li).isEmpty then sentinel
         else join "\n\n".toList ((includedRules cfg el sheets li).map ruleChunk)) ∧
      copyMatchedRules scenarioSheets freshLastIndexes (fun _ => true) (some btnElement) {} =
        .fulfilled ".btn \x7b\n  color: red !important;\n\x7d".toList := by
  refine ⟨?_, extractScan_chunks cfg el sheets li, ?_, scannedSheets_sublist cfg sheets li,
    ?_, by decide⟩
  · unfold ruleChunk declText
    congr 3
    apply List.map_congr_left
    intro prop _
    unfold declLine
    cases hp : rule.style.getPropertyPriority prop <;> simp [truthy]
  · unfold includedRules
    exact (List.take_sublist _ _).trans (List.filter_sublist _)
  · unfold extractText
    rw [extractScan_chunks, outText_map_ruleChunk]

theorem scannedSheets_inaccessible (cfg : Config) (sheets : List StyleSheet)
    (h : ∀ sheet ∈ sheets, sheet.cssRules = none) :
    ∀ li : LastIndexes, scannedSheets cfg sheets li = [] := by
  induction sheets with
  | nil => intro li; rfl
  | cons sheet rest ih =>
    intro li
    have hs : sheetScanned cfg sheet li = (false, li) := by
      simp [sheetScanned, isSameOrigin, h sheet (List.mem_cons_self _ _)]
    simp only [scannedSheets, hs]
    exact ih (fun q hq => h q (List.mem_cons_of_mem _ hq)) li

/-- C5 (the code at the failing input): with the include list `[/style\.css/g]`
and three accessible external sheets that all have the href
`https://example.test/css/style.css`, the rule loop is entered for the first
and the third sheet and not for the second, although the pattern matches the
href of each: the `test` call of the second sheet starts at the `lastIndex`
that the first call left at the end of the href. The same pattern without the
flag `g` lets all three sheets through, as the filter read off the href does
in both cases. -/
theorem global_pattern_skips_sheet :
    (sheetScanned includeGlobal.resolve (styleCssWith ruleTwo) freshLastIndexes).1 = true ∧
      (sheetScanned includeGlobal.resolve (styleCssWith ruleTwo)
        (sheetScanned includeGlobal.resolve (styleCssWith ruleOne) freshLastIndexes).2).1 =
          false ∧
      passesByHref includeGlobal.resolve (styleCssWith ruleTwo) = true ∧
      (extractScan includeGlobal.resolve anyElement threeStyleCssSheets
        freshLastIndexes).chunks = [ruleChunk ruleOne, ruleChunk ruleThree] ∧
      (extractScan includePlain.resolve anyElement threeStyleCssSheets
        freshLastIndexes).chunks = [ruleChunk ruleOne, ruleChunk ruleTwo, ruleChunk ruleThree] := by
  decide

/-- The sheet filter for patterns without the flags `g` and `y`: for an
accessible sheet the rule loop is entered exactly when the sheet is inline (no
href, or an empty one) and `includeInline` holds, or the sheet is external, no
exclude pattern matches its href and the include list is empty or has a
matching pattern; the `lastIndex` map is left alone. Under the default options
the sheet `style.css` and an inline sheet pass and `main.css` does not; an
excluded `style.css` does not pass either. -/
theorem sheet_filter_by_href (cfg : Config) (sheet : StyleSheet) (rules : List CSSRule)
    (li : LastIndexes) (h : sheet.cssRules = some rules)
    (hs : ∀ r ∈ cfg.excludePats ++ cfg.includePats, r.keepsLastIndex = false) :
    (sheetScanned cfg sheet li).2 = li ∧
      ((sheetScanned cfg sheet li).1 = true ↔
        ((sheet.href = none ∨ sheet.href = some []) ∧ cfg.includeInline = true) ∨
        (∃ href, sheet.href = some href ∧ href ≠ [] ∧
          (∀ r ∈ cfg.excludePats, r.exec 0 href = none) ∧
          (cfg.includePats = [] ∨ ∃ r ∈ cfg.includePats, (r.exec 0 href).isSome = true))) ∧
      (sheetScanned ({} : Options).resolve styleCssSheet freshLastIndexes).1 = true ∧
      (sheetScanned ({} : Options).resolve mainCssSheet freshLastIndexes).1 = false ∧
      (sheetScanned ({} : Options).resolve inlineSheet freshLastIndexes).1 = true ∧
      (sheetScanned excludePlain.resolve styleCssSheet freshLastIndexes).1 = false ∧
      (sheetScanned excludePlain.resolve inlineSheet freshLastIndexes).1 = true := by
  rw [sheetScanned_stateless cfg sheet rules li h hs]
  refine ⟨rfl, ?_, by decide, by decide, by decide, by decide, by decide⟩
  unfold passesByHref
  cases hh : sheet.href with
  | none => simp
  | some href =>
    cases href with
    | nil => simp
    | cons c cs =>
      simp only [Bool.and_eq_true, Bool.not_eq_true', Bool.or_eq_true, List.isEmpty_iff,
        List.any_eq_true, List.any_eq_false, Option.some.injEq, reduceCtorEq, or_self,
        false_and, false_or]
      constructor
      · rintro ⟨hx, hi⟩
        refine ⟨c :: cs, rfl, List.cons_ne_nil _ _, ?_, hi⟩
        intro r hr
        have := hx r hr
        cases he : r.exec 0 (c :: cs) with
        | none => rfl
        | some e => simp [he] at this
      · rintro ⟨href, hhref, _, hx, hi⟩
        subst hhref
        refine ⟨?_, hi⟩
        intro r hr
        simp [hx r hr]

/-- C6: the output text is never empty; it is the sentinel comment exactly when
no chunk was pushed, which is the case when no sheet is accessible, and it is
the chunks joined by a blank line otherwise. -/
theorem output_never_empty (cfg : Config) (el : Element) (sheets : List StyleSheet)
    (li : LastIndexes) :
    extractText cfg el sheets li ≠ [] ∧
      (extractText cfg el sheets li = sentinel ↔ (extractScan cfg el sheets li).chunks = []) ∧
      ((extractScan cfg el sheets li).chunks ≠ [] →
        extractText cfg el sheets li =
          join "\n\n".toList (extractScan cfg el sheets li).chunks) ∧
      ((∀ sheet ∈ sheets, sheet.cssRules = none) →
        extractText cfg el sheets li = sentinel) := by
  have hout : extractText cfg el sheets li =
      if (includedRules cfg el sheets li).isEmpty then sentinel
      else join "\n\n".toList ((includedRules cfg el sheets li).map ruleChunk) := by
    unfold extractText
    rw [extractScan_chunks, outText_map_ruleChunk]
  have hsent : sentinel ≠ [] := by decide
  have hlast : sentinel.getLast? = some '/' := by decide
  rw [extractScan_chunks]
  cases hr : includedRules cfg el sheets li with
  | nil =>
    rw [hr] at hout
    simp only [List.isEmpty_nil, if_true] at hout
    refine ⟨by rw [hout]; exact hsent, by simp [hout], by simp, fun _ => hout⟩
  | cons r rs =>
    rw [hr] at hout
    simp only [List.isEmpty_cons, Bool.false_eq_true, if_false] at hout
    have hl := join_chunks_getLast (r :: rs) (List.cons_ne_nil _ _)
    rw [← hout] at hl
    refine ⟨?_, ?_, fun _ => hout, ?_⟩
    · intro h0
      rw [h0] at hl
      exact absurd hl (by simp)
    · constructor
      · intro hs
        rw [hs, hlast] at hl
        exact absurd hl (by decide)
      · intro hm
        simp at hm
    · intro hall
      exfalso
      have hel : eligibleRules cfg sheets li = [] := by
        unfold eligibleRules
        rw [scannedSheets_inaccessible cfg sheets hall li]
        rfl
      unfold includedRules at hr
      rw [hel] at hr
      simp at hr

/-- C9 (the code at the failing input): the selector text `:is(a, b)` is cut at
its nested comma into `:is(a` and `b)`, neither of which the `b` element is
found to match, so `ruleMatchesEl` answers `false`, although `safeMatches`
holds for the only top-level alternative `:is(a, b)`; the split at top-level
commas that the specification describes answers `true`. -/
theorem nested_comma_is_split :
    selectorParts ":is(a, b)".toList = [":is(a".toList, "b)".toList] ∧
      ruleMatchesEl isListRule boldElement = false ∧
      safeMatches boldElement ":is(a, b)".toList = true ∧
      ((splitTopLevel 0 ":is(a, b)".toList).map trim).filter truthy = [":is(a, b)".toList] ∧
      ruleMatchesTopLevel isListRule boldElement = true := by
  decide

/-! ## The overlay: results -/

theorem le_clamp (n a b : ℚ) : a ≤ clamp n a b := le_max_left _ _

theorem clamp_le_max (n a b : ℚ) : clamp n a b ≤ max a b :=
  max_le (le_max_left _ _) ((min_le_left _ _).trans (le_max_right _ _))

theorem clamp_le (n a b : ℚ) (h : a ≤ b) : clamp n a b ≤ b :=
  max_le h (min_le_left _ _)

/-- C7 (counterexample): in a viewport 50 pixels wide and high the reposition
handler writes `6px` for both offsets, and 6 is not in the band
`[6, 50 - 56]`, which is empty. -/
theorem drag_band_fails_in_narrow_viewport :
    narrowDragging.drag = some ⟨30, 30, 50 - (50 - 14), 50 - (50 - 14)⟩ ∧
      (dragPointerMove narrowPointer narrowDragging).right = .px 6 ∧
      (dragPointerMove narrowPointer narrowDragging).bottom = .px 6 ∧
      (dragPointerMove narrowPointer narrowDragging).right.within 6
          (narrowPointer.innerWidth - 56) = false ∧
      (dragPointerMove narrowPointer narrowDragging).bottom.within 6
          (narrowPointer.innerHeight - 56) = false := by
  have hr : (dragPointerMove narrowPointer narrowDragging).right = .px 6 := by
    simp only [dragPointerMove, narrowDragging, barPointerDown, narrowPointer, clamp]
    norm_num
  have hb : (dragPointerMove narrowPointer narrowDragging).bottom = .px 6 := by
    simp only [dragPointerMove, narrowDragging, barPointerDown, narrowPointer, clamp]
    norm_num
  refine ⟨rfl, hr, hb, ?_, ?_⟩
  · rw [hr]
    simp only [CssValue.within, narrowPointer]
    norm_num
  · rw [hb]
    simp only [CssValue.within, narrowPointer]
    norm_num

/-- C7 (amended): while a reposition session is active the handler writes, for
each axis, the start offset minus the pointer delta clamped by `clamp`; the
written offset is at least 6 and at most the larger of 6 and the viewport
dimension minus 56, hence inside `[6, dimension - 56]` whenever the dimension
is at least 62. -/
theorem drag_move_band (s : Overlay) (d : DragSession) (e : PointerInput)
    (h : s.drag = some d) :
    (dragPointerMove e s).right =
        .px (clamp (d.startRight - (e.clientX - d.startX)) 6 (e.innerWidth - 56)) ∧
      (dragPointerMove e s).bottom =
        .px (clamp (d.startBottom - (e.clientY - d.startY)) 6 (e.innerHeight - 56)) ∧
      6 ≤ clamp (d.startRight - (e.clientX - d.startX)) 6 (e.innerWidth - 56) ∧
      clamp (d.startRight - (e.clientX - d.startX)) 6 (e.innerWidth - 56) ≤
        max 6 (e.innerWidth - 56) ∧
      6 ≤ clamp (d.startBottom - (e.clientY - d.startY)) 6 (e.innerHeight - 56) ∧
      clamp (d.startBottom - (e.clientY - d.startY)) 6 (e.innerHeight - 56) ≤
        max 6 (e.innerHeight - 56) ∧
      (62 ≤ e.innerWidth →
        (dragPointerMove e s).right.within 6 (e.innerWidth - 56) = true) ∧
      (62 ≤ e.innerHeight →
        (dragPointerMove e s).bottom.within 6 (e.innerHeight - 56) = true) := by
  have hr : (dragPointerMove e s).right =
      .px (clamp (d.startRight - (e.clientX - d.startX)) 6 (e.innerWidth - 56)) := by
    simp [dragPointerMove, h]
  have hb : (dragPointerMove e s).bottom =
      .px (clamp (d.startBottom - (e.clientY - d.startY)) 6 (e.innerHeight - 56)) := by
    simp [dragPointerMove, h]
  refine ⟨hr, hb, le_clamp _ _ _, clamp_le_max _ _ _, le_clamp _ _ _, clamp_le_max _ _ _,
    ?_, ?_⟩
  · intro hw
    rw [hr]
    simp only [CssValue.within, Bool.and_eq_true, decide_eq_true_eq]
    exact ⟨le_clamp _ _ _, clamp_le _ _ _ (by linarith)⟩
  · intro hw
    rw [hb]
    simp only [CssValue.within, Bool.and_eq_true, decide_eq_true_eq]
    exact ⟨le_clamp _ _ _, clamp_le _ _ _ (by linarith)⟩

/-- C7 (witness): a session started at (100, 100) in the 1000 by 800 viewport
and a pointer moved to (40, 60). -/
theorem drag_move_band_witness :
    bothSessions.drag = some ⟨100, 100, 1000 - 986, 800 - 786⟩ ∧
      (dragPointerMove widePointerMoved bothSessions).right =
        .px (clamp ((1000 - 986 : ℚ) - (widePointerMoved.clientX - 100)) 6
          (widePointerMoved.innerWidth - 56)) ∧
      (6 : ℚ) ≤ clamp ((1000 - 986 : ℚ) - (widePointerMoved.clientX - 100)) 6
          (widePointerMoved.innerWidth - 56) :=
  ⟨rfl,
    (drag_move_band bothSessions ⟨100, 100, 1000 - 986, 800 - 786⟩ widePointerMoved rfl).1,
    (drag_move_band bothSessions ⟨100, 100, 1000 - 986, 800 - 786⟩ widePointerMoved rfl).2.2.1⟩

/-- C8 (counterexample): on attach the stored records are written to the
live style as they are. With a position record of right 0px and bottom
0px and a size record of width 10px and height 10px, the live right offset
becomes `0px`, outside `[6, 1000 - 56]`, and the live panel width becomes
`10px`, outside `[240, 1000 * 0.95]`. -/
theorem restore_is_not_clamped :
    (run DEFAULTS cornerStorage []).right = .px 0 ∧
      (run DEFAULTS cornerStorage []).right.within 6 (1000 - 56) = false ∧
      (run DEFAULTS cornerStorage []).panelWidth = .px 10 ∧
      (run DEFAULTS cornerStorage []).panelWidth.within DEFAULTS.minWidth
          (1000 * DEFAULTS.maxWidthPct) = false := by
  have hr : (run DEFAULTS cornerStorage []).right = .px 0 := rfl
  have hw : (run DEFAULTS cornerStorage []).panelWidth = .px 10 := rfl
  refine ⟨hr, ?_, hw, ?_⟩
  · rw [hr]
    simp only [CssValue.within]
    norm_num
  · rw [hw]
    simp only [CssValue.within, DEFAULTS]
    norm_num

/-- C8 (amended): the two pointer-move handlers clamp what they write: an
active reposition session writes pixel offsets between 6 and the larger of 6
and the viewport dimension minus 56, an active resize session writes pixel
sizes between the configured minimum and the larger of that minimum and the
viewport dimension times the configured fraction, and an idle session writes
nothing. The pointer-up handlers persist the current live values, or `14px`
and `420px` where a live value is empty, and leave the live values alone. The
restore on attach writes the fields of the stored records as they are. -/
theorem overlay_writes (cfg : OverlayConfig) (s : Overlay) (e : PointerInput)
    (storage : Storage) :
    (∀ d, s.drag = some d →
      ∃ x y, (dragPointerMove e s).right = .px x ∧ (dragPointerMove e s).bottom = .px y ∧
        6 ≤ x ∧ x ≤ max 6 (e.innerWidth - 56) ∧
        6 ≤ y ∧ y ≤ max 6 (e.innerHeight - 56)) ∧
      (∀ r, s.resize = some r →
        ∃ w h, (resizePointerMove cfg e s).panelWidth = .px w ∧
          (resizePointerMove cfg e s).panelHeight = .px h ∧
          cfg.minWidth ≤ w ∧ w ≤ max cfg.minWidth (e.innerWidth * cfg.maxWidthPct) ∧
          cfg.minHeight ≤ h ∧ h ≤ max cfg.minHeight (e.innerHeight * cfg.maxHeightPct)) ∧
      (s.drag = none → dragPointerMove e s = s ∧ dragPointerUp s = s) ∧
      (s.resize = none → resizePointerMove cfg e s = s ∧ resizePointerUp s = s) ∧
      (∀ d, s.drag = some d →
        (dragPointerUp s).storage.pos =
            some (.fields (s.right.orElse (.px 14)) (s.bottom.orElse (.px 14))) ∧
          (dragPointerUp s).right = s.right ∧ (dragPointerUp s).bottom = s.bottom) ∧
      (∀ r, s.resize = some r →
        (resizePointerUp s).storage.size =
            some (.fields (s.panelWidth.orElse (.px 420)) (s.panelHeight.orElse (.px 420))) ∧
          (resizePointerUp s).panelWidth = s.panelWidth ∧
          (resizePointerUp s).panelHeight = s.panelHeight) ∧
      (∀ a b, storage.pos = some (.fields a b) →
        (attach cfg storage).right = a ∧ (attach cfg storage).bottom = b) ∧
      (∀ w h, storage.size = some (.fields w h) →
        (attach cfg storage).panelWidth = w ∧ (attach cfg storage).panelHeight = h) := by
  refine ⟨?_, ?_, ?_, ?_, ?_, ?_, ?_, ?_⟩
  · intro d hd
    refine ⟨clamp (d.startRight - (e.clientX - d.startX)) 6 (e.innerWidth - 56),
      clamp (d.startBottom - (e.clientY - d.startY)) 6 (e.innerHeight - 56), ?_, ?_,
      le_clamp _ _ _, clamp_le_max _ _ _, le_clamp _ _ _, clamp_le_max _ _ _⟩
    · simp [dragPointerMove, hd]
    · simp [dragPointerMove, hd]
  · intro r hr
    refine ⟨clamp (r.startW + (e.clientX - r.startX)) cfg.minWidth
        (e.innerWidth * cfg.maxWidthPct),
      clamp (r.startH + (e.clientY - r.startY)) cfg.minHeight
        (e.innerHeight * cfg.maxHeightPct), ?_, ?_,
      le_clamp _ _ _, clamp_le_max _ _ _, le_clamp _ _ _, clamp_le_max _ _ _⟩
    · simp [resizePointerMove, hr]
    · simp [resizePointerMove, hr]
  · intro hd
    simp [dragPointerMove, dragPointerUp, hd]
  · intro hr
    simp [resizePointerMove, resizePointerUp, hr]
  · intro d hd
    simp [dragPointerUp, hd]
  · intro r hr
    simp [resizePointerUp, hr]
  · intro a b hp
    cases hs : storage.size with
    | none => simp [attach, applyPos, applySize, hp, hs]
    | some rec =>
      cases rec <;> simp [attach, applyPos, applySize, hp, hs]
  · intro w h hs
    cases hp : storage.pos with
    | none => simp [attach, applyPos, applySize, hp, hs]
    | some rec =>
      cases rec <;> simp [attach, applyPos, applySize, hp, hs]

/-- C8 (witness): both sessions active in the 1000 by 800 viewport, the pointer
moved to (40, 60), and the stored records of `cornerStorage`. -/
theorem overlay_writes_witness :
    bothSessions.drag = some ⟨100, 100, 1000 - 986, 800 - 786⟩ ∧
      bothSessions.resize = some ⟨100, 100, 420, 420⟩ ∧
      cornerStorage.pos = some (.fields (.px 0) (.px 0)) ∧
      (∃ x y, (dragPointerMove widePointerMoved bothSessions).right = .px x ∧
        (dragPointerMove widePointerMoved bothSessions).bottom = .px y ∧
        6 ≤ x ∧ x ≤ max 6 (widePointerMoved.innerWidth - 56) ∧
        6 ≤ y ∧ y ≤ max 6 (widePointerMoved.innerHeight - 56)) ∧
      (∃ w h, (resizePointerMove DEFAULTS widePointerMoved bothSessions).panelWidth = .px w ∧
        (resizePointerMove DEFAULTS widePointerMoved bothSessions).panelHeight = .px h ∧
        DEFAULTS.minWidth ≤ w ∧
        w ≤ max DEFAULTS.minWidth (widePointerMoved.innerWidth * DEFAULTS.maxWidthPct) ∧
        DEFAULTS.minHeight ≤ h ∧
        h ≤ max DEFAULTS.minHeight (widePointerMoved.innerHeight * DEFAULTS.maxHeightPct)) ∧
      ((attach DEFAULTS cornerStorage).right = .px 0 ∧
        (attach DEFAULTS cornerStorage).bottom = .px 0) :=
  ⟨rfl, rfl, rfl,
    (overlay_writes DEFAULTS bothSessions widePointerMoved cornerStorage).1 _ rfl,
    (overlay_writes DEFAULTS bothSessions widePointerMoved cornerStorage).2.1 _ rfl,
    (overlay_writes DEFAULTS bothSessions widePointerMoved cornerStorage).2.2.2.2.2.2.1 _ _ rfl⟩

/-- C10: from any overlay state, so from every state a history of events
reaches, `resetUI` leaves right and bottom at `14px`, the overlay closed, the
inline panel size empty and the position, size and open records absent, and
keeps the CSS text, the live override and the CSS record; `resetCSS` leaves
the CSS text and the live override empty and the CSS record absent, and keeps
the position, the size, the open state and their records; each reset is
idempotent and the two commute. -/
theorem resets_are_independent (cfg : OverlayConfig) (storage : Storage)
    (history : List Event) (s : Overlay) :
    ((resetUI s).right = .px 14 ∧ (resetUI s).bottom = .px 14 ∧ (resetUI s).isOpen = false ∧
        (resetUI s).panelWidth = .unset ∧ (resetUI s).panelHeight = .unset ∧
        (resetUI s).storage.pos = none ∧ (resetUI s).storage.size = none ∧
        (resetUI s).storage.openFlag = none) ∧
      ((resetUI s).taValue = s.taValue ∧ (resetUI s).styleTagText = s.styleTagText ∧
        (resetUI s).storage.css = s.storage.css) ∧
      ((resetCSS s).taValue = [] ∧ (resetCSS s).styleTagText = [] ∧
        (resetCSS s).storage.css = none) ∧
      ((resetCSS s).right = s.right ∧ (resetCSS s).bottom = s.bottom ∧
        (resetCSS s).left = s.left ∧ (resetCSS s).top = s.top ∧
        (resetCSS s).panelWidth = s.panelWidth ∧ (resetCSS s).panelHeight = s.panelHeight ∧
        (resetCSS s).isOpen = s.isOpen ∧ (resetCSS s).storage.pos = s.storage.pos ∧
        (resetCSS s).storage.size = s.storage.size ∧
        (resetCSS s).storage.openFlag = s.storage.openFlag) ∧
      resetUI (resetUI s) = resetUI s ∧
      resetCSS (resetCSS s) = resetCSS s ∧
      resetUI (resetCSS s) = resetCSS (resetUI s) ∧
      resetUI (resetUI (run cfg storage history)) = resetUI (run cfg storage history) ∧
      resetCSS (resetCSS (run cfg storage history)) = resetCSS (run cfg storage history) ∧
      resetUI (resetCSS (run cfg storage history)) =
        resetCSS (resetUI (run cfg storage history)) ∧
      step cfg (step cfg s .apiResetUI) .apiResetCSS =
        step cfg (step cfg s .apiResetCSS) .apiResetUI := by
  refine ⟨⟨rfl, rfl, rfl, rfl, rfl, rfl, rfl, rfl⟩, ⟨rfl, rfl, rfl⟩, ⟨rfl, rfl, rfl⟩,
    ⟨rfl, rfl, rfl, rfl, rfl, rfl, rfl, rfl, rfl, rfl⟩, rfl, rfl, rfl, rfl, rfl, rfl, rfl⟩

end LiveCss
